import Mathlib

/-!
# Verification of the FireDM controller (`src/firedm/controller.py`)

This file gives a shallow embedding of the orchestration layer of the FireDM
download manager: the admission controller with its concurrency ceiling and
pending queue (`Controller.download`, `Controller._pending_downloads_handler`),
the retry / URL-refresh loop inside `Controller.download`, the event
aggregator (`Controller._observer`, `Controller._update_view`), the completion
watchdog (`Controller._on_completion_watchdog`), cancellation
(`Controller.stop_download`), scheduling (`Controller.schedule_start`) and the
post-completion action sequence (`Controller._post_download`).

The repository ships only `controller.py`; the `config`, `model`, `brain` and
`utils` modules it imports are not part of the sources.  Definitions whose doc
comment starts with `Modelled from the spec:` model those missing parts from
the specification document; everything else is translated directly from
`controller.py`.
-/

set_option maxHeartbeats 1000000

namespace FireDM

/-- Modelled from the spec: the job status enumeration of `config.Status`
(`config.py` is not in the sources).  The spec lists the statuses
`{pending, scheduled, downloading, refreshing_url, completed, cancelled, error}`. -/
inductive Status where
  | pending
  | scheduled
  | downloading
  | refreshing_url
  | completed
  | cancelled
  | error
deriving DecidableEq, Repr

/-- Modelled from the spec: `config.Status.active_states`.  The spec's glossary:
"Active states: statuses counted against the concurrency ceiling
(downloading, refreshing_url)". -/
def Status.isActive : Status → Bool
  | .downloading => true
  | .refreshing_url => true
  | _ => false

/-- The fields of an `ObservableDownloadItem` that the controller logic reads
or writes (`model.py` is not in the sources; the field list follows the spec's
data model and the accesses made by `controller.py`). -/
structure Job where
  uid : String
  name : String
  folder : String
  status : Status
  total_size : Nat
  downloaded : Nat
  speed : Nat
  /-- content type, `none` models a missing `d.type` -/
  jobType : Option String
  subtype_list : List String
  resumable : Bool
  /-- schedule timestamp (`d.sched`), `none` when not scheduled -/
  sched : Option Nat
  /-- per-job post-completion shell command (`d.on_completion_command`) -/
  on_completion_command : Option String
  /-- per-job shutdown flag (`d.shutdown_pc`) -/
  shutdown_pc : Bool
  /-- `d.thumbnail_url`, `none` when absent -/
  thumbnail_url : Option String
deriving DecidableEq, Repr

/-- `self.d_map`: mapping from uid to download item, embedded as an
association list that keeps insertion order (Python dicts are ordered). -/
abbrev JobMap := List (String × Job)

/-- `self.d_map.get(uid)`. -/
def mapLookup (m : JobMap) (u : String) : Option Job :=
  match m with
  | [] => none
  | (k, d) :: rest => if k = u then some d else mapLookup rest u

/-- `self.d_map[d.uid] = d`: insert-or-replace keyed by the job's own uid,
keeping the position of an existing key (Python dict assignment). -/
def mapSet (m : JobMap) (d : Job) : JobMap :=
  match m with
  | [] => [(d.uid, d)]
  | (k, e) :: rest => if k = d.uid then (k, d) :: rest else (k, e) :: mapSet rest d

/-- `len([d for d in self.d_map.values() if d.status in Status.active_states])`
(`controller.py` lines 896 and 1092-1093). -/
def activeCount (m : JobMap) : Nat :=
  (m.filter (fun p => p.2.status.isActive)).length

/-- `Controller.stop_download` (`controller.py` lines 1149-1158): set the
status to `cancelled` if the current status is active or pending. -/
def stop_download (m : JobMap) (uid : String) : JobMap :=
  match mapLookup m uid with
  | none => m
  | some d =>
      if d.status.isActive ∨ d.status = Status.pending then
        mapSet m { d with status := Status.cancelled }
      else
        m

/-- `Controller.schedule_start` (`controller.py` lines 1691-1710) acting on the
job record.  `target_date = none` models a value that is not a
`datetime.datetime` instance (the `isinstance` guard); timestamps are modelled
as natural numbers.  The function returns the job record after the call. -/
def schedule_start (d : Option Job) (target_date : Option Nat) (now : Nat) :
    Option Job :=
  match d, target_date with
  | none, _ => none
  | some d, none => some d
  | some d, some t =>
      if t < now then
        some d
      else
        some { d with sched := some t, status := Status.scheduled }

/-! ### Pre-download checks, retry loop and the `download` operation -/

/-- Outcome of the destination-folder write test in `_pre_download_checks`
(`controller.py` lines 969-995): success, `FileNotFoundError`,
`PermissionError`/`OSError`, or any other exception. -/
inductive FolderResult where
  | ok
  | notFound
  | noPermission
  | otherError
deriving DecidableEq, Repr

/-- The environment a `download` call runs against: configuration flags read
from `config`, filesystem answers, and the view's answers to the warning
dialogues (`self.get_user_response(popup_id=n)` keyed by popup id). -/
structure Env where
  /-- the `silent` argument of `download` / `_pre_download_checks` -/
  silent : Bool
  /-- result of `check_ffmpeg()` -/
  ffmpeg_available : Bool
  /-- `config.download_folder` (fallback when `d.folder` is empty) -/
  download_folder : String
  /-- the folder write test of lines 969-995 -/
  folderCheck : String → FolderResult
  /-- `os.path.isfile(d.target_file)` -/
  targetExists : String → Bool
  /-- `config.auto_rename` -/
  auto_rename : Bool
  /-- `self.get_user_response(popup_id=n)` -/
  userResponse : Nat → String
  /-- `utils.auto_rename(d.name, forbidden_names)`: the fresh name chosen for a
  colliding file (`utils.py` is not in the sources) -/
  renameName : String → String
  /-- `d.calculate_uid()`: Modelled from the spec: "a stable unique identifier
  derived from destination name+folder" (`model.py` is not in the sources) -/
  calcUid : String → String → String

/-- `d.target_file`: destination folder + file name. -/
def targetFile (d : Job) : String := d.folder ++ "/" ++ d.name

/-- `rename(d)` (`controller.py` lines 150-158): pick a non-colliding name and
recompute the uid from the new name and the folder. -/
def renameJob (env : Env) (d : Job) : Job :=
  let n := env.renameName d.name
  { d with name := n, uid := env.calcUid n d.folder }

/-- The non-resumable warning at the end of `_pre_download_checks`
(`controller.py` lines 1045-1051): in non-silent mode the user may abort. -/
def finalCheck (env : Env) (d : Job) : Option Job :=
  if ¬d.resumable ∧ ¬env.silent ∧ env.userResponse 5 ≠ "Yes" then none
  else some d

/-- Lines 1024-1051 of `_pre_download_checks`: an item whose uid is already
in `d_map` is a resume candidate when the total sizes match (carry over the
downloaded byte count), otherwise it is renamed and all checks rerun
(`retry` is the recursive re-entry into `_pre_download_checks`). -/
def resumeChecks (env : Env) (m : JobMap) (retry : Job → Option Job)
    (d : Job) : Option Job :=
  match mapLookup m d.uid with
  | some prev =>
      if d.total_size = prev.total_size then
        finalCheck env { d with downloaded := prev.downloaded }
      else retry (renameJob env d)
  | none => finalCheck env d

/-- `Controller._pre_download_checks` (`controller.py` lines 917-1051).
Returns `none` for a `False` result and `some d2` for `True`, where `d2` is
the (possibly renamed / resume-updated) download item.  Notes kept from the
source: the guard `if not (d or d.url)` on line 930 can never fire for the
non-`None` items `download` passes in (`d` is a truthy object), so it is not
modelled; the `d.accept_html = True` mutation of the non-silent HTML branch
(line 937) is not tracked because nothing in the controller reads it.  The
rename recursion of lines 1019 and 1037 is unbounded in the source (spec §9
flags this); it is embedded with an explicit fuel argument that decreases at
every recursive call, `none` on exhaustion. -/
def preChecks (env : Env) (m : JobMap) : Job → Nat → Option Job
  | _, 0 => none
  | d, fuel + 1 =>
    -- lines 933-939: missing or text/html content type; in silent mode this
    -- fails, in non-silent mode the dialogue is shown and the function goes on
    if (d.jobType = none ∨ d.jobType = some "text/html") ∧ env.silent then none
    -- line 941: download already in progress
    else if d.status.isActive then none
    -- lines 945-949: unsupported protocols f4m / ism
    else if "f4m" ∈ d.subtype_list ∨ "ism" ∈ d.subtype_list then none
    -- lines 952-964: ffmpeg required for media types
    else if (d.jobType = some "video" ∨ d.jobType = some "audio" ∨
             d.jobType = some "key") ∧ ¬env.ffmpeg_available then none
    else
      -- line 967: missing folder falls back to config.download_folder
      let folder := if d.folder = "" then env.download_folder else d.folder
      match env.folderCheck folder with
      | FolderResult.ok =>
        let d1 := { d with folder := folder }
        -- lines 997-1000: empty file name
        if d1.name = "" then none
        -- lines 1003-1021: a file with the same name exists in the destination
        else if env.targetExists (targetFile d1) then
          let action := if env.auto_rename ∨ env.silent then "Rename"
                        else env.userResponse 4
          if action = "Rename" then preChecks env m (renameJob env d1) fuel
          else if action = "Overwrite" then
            resumeChecks env m (fun d2 => preChecks env m d2 fuel) d1
          else none
        else resumeChecks env m (fun d2 => preChecks env m d2 fuel) d1
      | _ => none

/-- Result of one run of the retry loop of `Controller.download`
(`controller.py` lines 1100-1127): the job's terminal status, the number of
transfer attempts (`brain` runs), the number of URL-refresh cycles, and
whether the "too many connection errors" failure was surfaced to the user. -/
structure LoopResult where
  finalStatus : Status
  attempts : Nat
  refreshes : Nat
  surfaced : Bool
deriving DecidableEq, Repr

/-- One pass of `for n in range(config.refresh_url_retries + 1)`
(`controller.py` lines 1100-1127).  `engine n` is the terminal status the
transfer engine (`brain`, not in the sources; an external collaborator per the
spec) leaves on the job after attempt `n`.  `fuel` is the number of loop
iterations left (`retries + 1 - n`), `last` the status after the previous
attempt. -/
def retryLoopAux (retries : Nat) (engine : Nat → Status) :
    Nat → Nat → Nat → Nat → Bool → Status → LoopResult
  | _, 0, att, ref, surf, last => ⟨last, att, ref, surf⟩
  | n, fuel + 1, att, ref, surf, _ =>
    let st := engine n
    if st ≠ Status.error then
      -- line 1111-1112: `if d.status != Status.error: break`
      ⟨st, att + 1, ref, surf⟩
    else if retries ≤ n then
      -- lines 1114-1116: bound exhausted, surface "too many connection errors"
      retryLoopAux retries engine (n + 1) fuel (att + 1) ref true st
    else
      -- lines 1117-1127: set `refreshing_url`, refresh the url, loop again
      retryLoopAux retries engine (n + 1) fuel (att + 1) (ref + 1) surf st

/-- The whole retry loop of `Controller.download`, starting at `n = 0` with
`refresh_url_retries + 1` iterations. -/
def retryLoop (retries : Nat) (engine : Nat → Status) : LoopResult :=
  retryLoopAux retries engine 0 (retries + 1) 0 0 false Status.downloading

/-- The configuration surface the admission controller reads. -/
structure Config where
  max_concurrent_downloads : Nat
  refresh_url_retries : Nat
deriving DecidableEq, Repr

/-- Controller state: the item store `d_map` and the pending queue
`pending_downloads_q` (the queue holds the same objects that sit in `d_map`;
it is embedded as the list of their uids in FIFO order). -/
structure CtrlState where
  m : JobMap
  q : List String
deriving DecidableEq, Repr

/-- What one `download` call did: whether the job was registered into `d_map`,
whether it was parked on the pending queue, and the retry-loop result when
execution actually started (`none` when no transfer attempt was made). -/
structure DlOutcome where
  registered : Bool
  queued : Bool
  loop : Option LoopResult
deriving DecidableEq, Repr

/-- `Controller.download` (`controller.py` lines 1053-1147) as a state
transformer, at the granularity of one whole invocation: pre-flight checks;
on success register the item (`report_d 'new'`, `register_callback`,
`d_map[d.uid] = d`, lines 1081-1087); unless `download_later`, either park the
job as `pending` on the queue when the active count is at or above
`config.max_concurrent_downloads` (lines 1092-1097) or run the retry loop to a
terminal status (lines 1100-1127). -/
def download (C : Config) (env : Env) (engine : Nat → Status) (fuel : Nat)
    (s : CtrlState) (d : Job) (download_later : Bool) : CtrlState × DlOutcome :=
  match preChecks env s.m d fuel with
  | none => (s, ⟨false, false, none⟩)
  | some d1 =>
    let m1 := mapSet s.m d1
    if download_later then (⟨m1, s.q⟩, ⟨true, false, none⟩)
    else if C.max_concurrent_downloads ≤ activeCount m1 then
      let d2 := { d1 with status := Status.pending }
      (⟨mapSet m1 d2, s.q ++ [d2.uid]⟩, ⟨true, true, none⟩)
    else
      let r := retryLoop C.refresh_url_retries engine
      let d3 := { d1 with status := r.finalStatus }
      (⟨mapSet m1 d3, s.q⟩, ⟨true, false, some r⟩)

/-- One iteration of `Controller._pending_downloads_handler`
(`controller.py` lines 892-902): when the active count is below the ceiling,
pop the head of the pending queue and hand it to `download(d, silent=True)`
only if its status is still `pending`.  The second component is the uid popped
and handed to `download` (`none` when nothing was started this iteration).
An empty queue makes `pending_downloads_q.get()` block, leaving the state
untouched. -/
def drainIter (C : Config) (env : Env) (engine : Nat → Status) (fuel : Nat)
    (s : CtrlState) : CtrlState × Option (String × DlOutcome) :=
  if activeCount s.m < C.max_concurrent_downloads then
    match s.q with
    | [] => (s, none)
    | u :: rest =>
      match mapLookup s.m u with
      | some d =>
        if d.status = Status.pending then
          let r := download C env engine fuel ⟨s.m, rest⟩ d false
          (r.1, some (u, r.2))
        else (⟨s.m, rest⟩, none)
      | none => (⟨s.m, rest⟩, none)
  else (s, none)

/-- `n` iterations of the pending-drain loop; collects the uids handed to
`download`, in order. -/
def drainN (C : Config) (env : Env) (engine : Nat → Status) (fuel : Nat) :
    Nat → CtrlState → CtrlState × List String
  | 0, s => (s, [])
  | n + 1, s =>
    let r := drainIter C env engine fuel s
    let r2 := drainN C env engine fuel n r.1
    (r2.1, (match r.2 with | some (u, _) => [u] | none => []) ++ r2.2)

/-! ### Event aggregator (`Controller._observer`, `Controller._update_view`) -/

/-- Field assignments of one notification, as a `key -> value` association
list; property values are abstracted to natural numbers. -/
abbrev Fields := List (String × Nat)

/-- One item of `self.observer_q`: the kwargs dict of a property-change
notification.  `uid` models `item.get('uid')` (`none` when the key is
absent). -/
structure Event where
  uid : Option String
  fields : Fields
deriving DecidableEq, Repr

/-- The `if uid:` guard of `_observer` (line 501): Python truthiness drops a
missing or empty uid. -/
def goodUid (e : Event) : Option String :=
  match e.uid with
  | none => none
  | some s => if s = "" then none else some s

/-- Python `dict[k] = v`: overwrite in place keeping the key's position, or
append a new key at the end. -/
def dictInsert : Fields → String → Nat → Fields
  | [], k, v => [(k, v)]
  | (k', v') :: rest, k, v =>
      if k' = k then (k, v) :: rest else (k', v') :: dictInsert rest k v

/-- Python `d.update(**e)`: assign every key of `e` into `d`, in order. -/
def dictUpdate (d : Fields) (e : Fields) : Fields :=
  e.foldl (fun a p => dictInsert a p.1 p.2) d

/-- Python `d.get(k)`. -/
def dictLookup : Fields → String → Option Nat
  | [], _ => none
  | (k', v) :: rest, k => if k' = k then some v else dictLookup rest k

/-- The flush buffer of `_observer`: a dict from uid to merged fields, in
first-seen order (Python dicts keep insertion order). -/
abbrev Buffer := List (String × Fields)

/-- `buffer.setdefault(uid, item).update(**item)` (line 502): update the
existing entry in place, or append a new entry built from the item's own
fields (`dictUpdate [] fs` is the dict the kwargs form; the self-`update`
after `setdefault` re-assigns the same keys). -/
def bufUpsert (u : String) (fs : Fields) : Buffer → Buffer
  | [] => [(u, dictUpdate [] fs)]
  | (k, d) :: rest =>
      if k = u then (k, dictUpdate d fs) :: rest
      else (k, d) :: bufUpsert u fs rest

/-- Processing one queued event into the buffer (lines 498-502). -/
def bufAdd (buf : Buffer) (e : Event) : Buffer :=
  match goodUid e with
  | none => buf
  | some u => bufUpsert u e.fields buf

/-- `buffer.get(u)`. -/
def bufLookup : Buffer → String → Option Fields
  | [], _ => none
  | (k, d) :: rest, u => if k = u then some d else bufLookup rest u

/-- The buffer at the end of one flush window that drained the queued events
`evs` (lines 498-502, starting from the cleared buffer of line 507). -/
def flushBuffer (evs : List Event) : Buffer :=
  evs.foldl bufAdd []

/-- A notification sent to the view by `self.view.update_view(...)`. -/
inductive ViewMsg where
  | totalSpeed (v : Nat)
  | update (uid : String) (fields : Fields)
deriving DecidableEq, Repr

/-- `sum([d.speed for d in self.d_map.values() if d.status == Status.downloading])`
(`controller.py` line 531). -/
def totalSpeedOf (m : JobMap) : Nat :=
  ((m.filter (fun p => decide (p.2.status = Status.downloading))).map
    (fun p => p.2.speed)).sum

/-- The view calls made by one `Controller._update_view` invocation
(`controller.py` lines 511-535): first the `total_speed` aggregate (lines
530-533), then the per-item update (line 535).  The derived-field
augmentation of lines 521-528 only adds read-only fields to the update
payload (computed in `model.py`, not in the sources) and is not modelled;
it does not change which messages are sent. -/
def update_view (m : JobMap) (u : String) (fs : Fields) : List ViewMsg :=
  [ViewMsg.totalSpeed (totalSpeedOf m), ViewMsg.update u fs]

/-- The emission phase of one `_observer` flush (lines 504-505): one
`_update_view` call per buffer entry, in buffer order. -/
def flushEmissions (m : JobMap) (evs : List Event) : List ViewMsg :=
  ((flushBuffer evs).map (fun p => update_view m p.1 p.2)).flatten

/-- Whether a view message is the `total_speed` aggregate notification. -/
def isTotalSpeedMsg : ViewMsg → Bool
  | ViewMsg.totalSpeed _ => true
  | _ => false

/-- Whether a view message is the consolidated update of identifier `u`. -/
def isUpdateFor (u : String) : ViewMsg → Bool
  | ViewMsg.update w _ => w == u
  | _ => false

/-- The identifiers of the per-item updates of an emission sequence, in
emission order. -/
def emittedUids (msgs : List ViewMsg) : List String :=
  msgs.filterMap (fun msg =>
    match msg with
    | ViewMsg.update w _ => some w
    | _ => none)

/-- Last value assigned to key `k` in a field sequence (later assignments win,
keys missing from later assignments keep the earlier value). -/
def lastVal : Fields → String → Option Nat
  | [], _ => none
  | p :: rest, k =>
      match lastVal rest k with
      | some v => some v
      | none => if p.1 = k then some p.2 else none

/-- All field assignments carried by the events of identifier `u`, in queue
order. -/
def eventFieldsFor (evs : List Event) (u : String) : Fields :=
  ((evs.filter (fun e => decide (goodUid e = some u))).map Event.fields).flatten

/-- The identifiers of a window's events in first-seen order, starting from
the already-seen list `acc`. -/
def firstSeenAux (acc : List String) : List Event → List String
  | [] => acc
  | e :: rest =>
      match goodUid e with
      | none => firstSeenAux acc rest
      | some u => firstSeenAux (if u ∈ acc then acc else acc ++ [u]) rest

/-- The identifiers touched during a flush window, in first-seen order. -/
def firstSeen (evs : List Event) : List String :=
  firstSeenAux [] evs

/-! ### Completion watchdog (`Controller._on_completion_watchdog`) -/

/-- What one poll of the watchdog observes: whether a post-batch action is
configured (`any((config.on_completion_command, config.shutdown_pc))`) and the
snapshot of the statuses in `d_map.values()`. -/
structure Poll where
  actionConfigured : Bool
  statuses : List Status
deriving DecidableEq, Repr

/-- One iteration of `_on_completion_watchdog` (`controller.py` lines
1810-1835) on the `trigger` flag: returns the new flag and whether the
post-batch action fired during this poll. -/
def wdStep (trigger : Bool) (p : Poll) : Bool × Bool :=
  if p.actionConfigured then
    if p.statuses.any Status.isActive then (true, false)
    else if trigger ∧ p.statuses.all (fun s => decide (s = Status.completed)) then
      (false, true)
    else (trigger, false)
  else (false, false)

/-- The trigger flag after a sequence of polls. -/
def wdTrigger (t : Bool) (ps : List Poll) : Bool :=
  ps.foldl (fun t p => (wdStep t p).1) t

/-- The fire/no-fire outcome of each poll in a sequence. -/
def wdFired : Bool → List Poll → List Bool
  | _, [] => []
  | t, p :: ps => (wdStep t p).2 :: wdFired (wdStep t p).1 ps

/-- A poll that arms the watchdog: an action is configured and some job is in
an active state (lines 1814-1817). -/
def armingPoll (p : Poll) : Prop :=
  p.actionConfigured = true ∧ p.statuses.any Status.isActive = true

/-! ### Post-completion actions (`Controller._post_download`) -/

/-- The five actions of the post-completion sequence, in source order
(`controller.py` lines 1160-1189). -/
inductive PostAction where
  | thumbnail
  | checksum
  | timestamp
  | command
  | shutdown
deriving DecidableEq, Repr

/-- Configuration and failure pattern for one `_post_download` run: the
`config` flags selecting actions, `config.test_mode`, and whether each
fallible helper fails on this run. -/
structure PostEnv where
  download_thumbnail : Bool
  checksum : Bool
  use_server_timestamp : Bool
  test_mode : Bool
  thumbnail_fails : Bool
  timestamp_fails : Bool
  command_error : Bool
deriving DecidableEq, Repr

/-- `download_thumbnail` (`controller.py` lines 187-203): fetches only for a
completed item with a thumbnail url; any exception is caught and logged,
re-raised only when `config.test_mode` is set. -/
def thumbnailAction (env : PostEnv) (d : Job) : Except Unit Unit :=
  if d.status = Status.completed ∧ d.thumbnail_url ≠ none ∧ env.thumbnail_fails ∧
      env.test_mode then
    Except.error ()
  else Except.ok ()

/-- The checksum block (`controller.py` lines 1172-1177).  Modelled from the
spec: `utils.calc_md5_sha256` is a one-shot utility outside the core
("post-completion action failure (checksum, command, thumbnail) — logged,
does not revert the job's completed status and does not block sibling
actions"), so it reports failure without raising. -/
def checksumAction (_env : PostEnv) (_d : Job) : Except Unit Unit :=
  Except.ok ()

/-- `write_timestamp` (`controller.py` lines 120-147): acts only on a
completed item; any exception is caught and logged, re-raised only when
`config.test_mode` is set. -/
def timestampAction (env : PostEnv) (d : Job) : Except Unit Unit :=
  if d.status = Status.completed ∧ env.timestamp_fails ∧ env.test_mode then
    Except.error ()
  else Except.ok ()

/-- The completion-command block (`controller.py` lines 1182-1185).  Modelled
from the spec: `utils.run_command` returns an error flag instead of raising
(its error is only logged, line 1184-1185). -/
def commandAction (_env : PostEnv) (_d : Job) : Except Unit Unit :=
  Except.ok ()

/-- `Controller._post_download` (`controller.py` lines 1160-1189): on a
completed item run, in order, the thumbnail fetch, the checksum computation,
the server-timestamp write, the per-item completion command, and the shutdown
request (which clears `d.shutdown_pc` first).  Returns the job record after
the call and the list of actions that ran; an uncaught exception (possible
only in test mode) aborts the remainder, mirroring the `try` block of
`Controller.download` that wraps the call (lines 1076, 1144-1147). -/
def post_download (env : PostEnv) (d : Job) : Except Unit (Job × List PostAction) :=
  if d.status = Status.completed then do
    let l1 ← if env.download_thumbnail then do
        thumbnailAction env d
        pure [PostAction.thumbnail]
      else pure []
    let l2 ← if env.checksum then do
        checksumAction env d
        pure [PostAction.checksum]
      else pure []
    let l3 ← if env.use_server_timestamp then do
        timestampAction env d
        pure [PostAction.timestamp]
      else pure []
    let l4 ← match d.on_completion_command with
      | some _ => do
          commandAction env d
          pure [PostAction.command]
      | none => pure []
    let r := if d.shutdown_pc then
        ({ d with shutdown_pc := false }, [PostAction.shutdown])
      else (d, ([] : List PostAction))
    pure (r.1, l1 ++ l2 ++ l3 ++ l4 ++ r.2)
  else pure (d, [])

/-- The actions `_post_download` is configured to run on `d`. -/
def configuredActions (env : PostEnv) (d : Job) : List PostAction :=
  (if env.download_thumbnail then [PostAction.thumbnail] else []) ++
  (if env.checksum then [PostAction.checksum] else []) ++
  (if env.use_server_timestamp then [PostAction.timestamp] else []) ++
  (match d.on_completion_command with
   | some _ => [PostAction.command]
   | none => []) ++
  (if d.shutdown_pc then [PostAction.shutdown] else [])

/-! ### The interleaved transition system of the controller

`Controller.download` runs the retry loop on a dedicated thread and blocks in
`t.join()` for the whole transfer, while `_pending_downloads_handler`,
`_scheduled_downloads_handler`, `stop_download` and `delete` read and write
`d_map` concurrently.  `Step` captures the controller's observable actions on
the item store and the pending queue, one atomic action per transition; the
boundaries of a transfer attempt (thread start / `t.join()` return) are the
natural interleaving points.  Pre-flight validation is modelled separately by
`preChecks`; the submit constructors carry the one validation fact relevant to
the status counts (the submitted copy is not in an active state, line 941).

The Boolean index switches the `error → refreshing_url` re-activation of the
retry loop (line 1120) on or off: that transition consults no ceiling, and
separating it is what isolates its effect on the concurrency invariant. -/

/-- `self.d_map.pop(uid)` (`Controller.delete`, lines 1554-1566). -/
def mapRemove (m : JobMap) (u : String) : JobMap :=
  match m with
  | [] => []
  | (k, d) :: rest => if k = u then rest else (k, d) :: mapRemove rest u

/-- One observable action of the controller on the item store and pending
queue.  `Step C allowRefresh s s'`. -/
inductive Step (C : Config) : Bool → CtrlState → CtrlState → Prop
  /-- `download` with a free slot (lines 1087-1106): register the item, count
  the active jobs, and start the first transfer attempt (`brain` marks the job
  `downloading`).  The submitted copy passed `_pre_download_checks`, so it is
  not in an active state. -/
  | submit_start (a : Bool) (s : CtrlState) (d : Job)
      (hd : d.status.isActive = false)
      (hc : activeCount (mapSet s.m d) < C.max_concurrent_downloads) :
      Step C a s ⟨mapSet (mapSet s.m d) { d with status := Status.downloading }, s.q⟩
  /-- `download` with the ceiling reached (lines 1087-1097): register the item,
  set it `pending` and append it to the pending queue. -/
  | submit_pending (a : Bool) (s : CtrlState) (d : Job)
      (hd : d.status.isActive = false)
      (hc : C.max_concurrent_downloads ≤ activeCount (mapSet s.m d)) :
      Step C a s ⟨mapSet (mapSet s.m d) { d with status := Status.pending },
                  s.q ++ [d.uid]⟩
  /-- `t.join()` returns (line 1109): the transfer engine left a terminal
  status on the job. -/
  | attempt_end (a : Bool) (s : CtrlState) (u : String) (d : Job) (t : Status)
      (hl : mapLookup s.m u = some d) (hu : d.uid = u)
      (hd : d.status = Status.downloading)
      (ht : t = Status.completed ∨ t = Status.error ∨ t = Status.cancelled) :
      Step C a s ⟨mapSet s.m { d with status := t }, s.q⟩
  /-- Line 1120: the retry loop of a live `download` invocation re-activates
  its errored job (`d.status = Status.refreshing_url`) with no ceiling
  check.  Only available when `allowRefresh` is `true`. -/
  | refresh_start (s : CtrlState) (u : String) (d : Job)
      (hl : mapLookup s.m u = some d) (hu : d.uid = u)
      (hd : d.status = Status.error) :
      Step C true s ⟨mapSet s.m { d with status := Status.refreshing_url }, s.q⟩
  /-- Lines 1100-1106, next loop iteration: after the url refresh the engine
  restarts and the job is `downloading` again. -/
  | refresh_end (a : Bool) (s : CtrlState) (u : String) (d : Job)
      (hl : mapLookup s.m u = some d) (hu : d.uid = u)
      (hd : d.status = Status.refreshing_url) :
      Step C a s ⟨mapSet s.m { d with status := Status.downloading }, s.q⟩
  /-- One drain iteration that starts the popped head (lines 892-902 plus the
  re-checks of the inner `download(d, silent=True)` call). -/
  | drain_start (a : Bool) (s : CtrlState) (u : String) (rest : List String)
      (d : Job)
      (hq : s.q = u :: rest)
      (hc : activeCount s.m < C.max_concurrent_downloads)
      (hl : mapLookup s.m u = some d) (hu : d.uid = u)
      (hd : d.status = Status.pending) :
      Step C a s ⟨mapSet s.m { d with status := Status.downloading }, rest⟩
  /-- One drain iteration that pops a job whose status is no longer `pending`
  and silently drops it (line 899). -/
  | drain_drop (a : Bool) (s : CtrlState) (u : String) (rest : List String)
      (hq : s.q = u :: rest)
      (hc : activeCount s.m < C.max_concurrent_downloads)
      (hd : ∀ d, mapLookup s.m u = some d → d.status ≠ Status.pending) :
      Step C a s ⟨s.m, rest⟩
  /-- `stop_download` (lines 1149-1158). -/
  | stop (a : Bool) (s : CtrlState) (u : String) (d : Job)
      (hl : mapLookup s.m u = some d) (hu : d.uid = u)
      (hd : d.status.isActive = true ∨ d.status = Status.pending) :
      Step C a s ⟨mapSet s.m { d with status := Status.cancelled }, s.q⟩
  /-- `schedule_start` on a stored item (lines 1691-1710). -/
  | schedule (a : Bool) (s : CtrlState) (u : String) (d : Job) (t now : Nat)
      (hl : mapLookup s.m u = some d) (hu : d.uid = u)
      (ht : ¬t < now) :
      Step C a s ⟨mapSet s.m { d with sched := some t, status := Status.scheduled },
                  s.q⟩
  /-- `delete` (lines 1554-1566): pop the item from the store. -/
  | delete (a : Bool) (s : CtrlState) (u : String) :
      Step C a s ⟨mapRemove s.m u, s.q⟩

/-- Reachability along controller actions. -/
inductive Reach (C : Config) (a : Bool) : CtrlState → CtrlState → Prop
  | refl (s : CtrlState) : Reach C a s s
  | tail {s t u : CtrlState} : Reach C a s t → Step C a t u → Reach C a s u

/-! ### Concrete instances used to evaluate the model -/

/-- A plain, valid, non-active download item. -/
def baseJob : Job where
  uid := "base"
  name := "base"
  folder := "dl"
  status := Status.cancelled
  total_size := 100
  downloaded := 0
  speed := 0
  jobType := some "file"
  subtype_list := []
  resumable := true
  sched := none
  on_completion_command := none
  shutdown_pc := false
  thumbnail_url := none

/-- First submitted item of the concurrency trace. -/
def jobA : Job := { baseJob with uid := "a", name := "a" }

/-- Second submitted item of the concurrency trace. -/
def jobB : Job := { baseJob with uid := "b", name := "b" }

/-- A ceiling of one concurrent download, two url-refresh retries. -/
def cfg1 : Config := ⟨1, 2⟩

/-- An environment in which every pre-flight check passes (silent mode, ffmpeg
present, writable folder, no name collisions). -/
def envOk : Env where
  silent := true
  ffmpeg_available := true
  download_folder := "dl"
  folderCheck := fun _ => FolderResult.ok
  targetExists := fun _ => false
  auto_rename := true
  userResponse := fun _ => ""
  renameName := fun n => n ++ "2"
  calcUid := fun n f => n ++ "@" ++ f

/-- A transfer engine whose every attempt ends in a transient failure. -/
def engineErr : Nat → Status := fun _ => Status.error

/-- A transfer engine that succeeds at the first attempt. -/
def engineOk : Nat → Status := fun _ => Status.completed

/-- A transfer engine that fails transiently twice and is cancelled during the
third attempt. -/
def engineCancel2 : Nat → Status := fun n =>
  if n < 2 then Status.error else Status.cancelled

/-- State after `download(jobA, runNow)` with a free slot: `jobA` registered
and downloading. -/
def c1s1 : CtrlState :=
  ⟨mapSet (mapSet (⟨[], []⟩ : CtrlState).m jobA)
    { jobA with status := Status.downloading }, (⟨[], []⟩ : CtrlState).q⟩

/-- State after `download(jobB, runNow)` at the ceiling: `jobB` registered,
`pending`, queued. -/
def c1s2 : CtrlState :=
  ⟨mapSet (mapSet c1s1.m jobB) { jobB with status := Status.pending },
   c1s1.q ++ [jobB.uid]⟩

/-- `jobA`, still inside its `download` invocation, after `jobA`'s registered copy. -/
def jobA1 : Job := { jobA with status := Status.downloading }

/-- `jobB`'s registered pending copy. -/
def jobB1 : Job := { jobB with status := Status.pending }

/-- State after `jobA`'s transfer attempt ends with a transient error
(`t.join()` returned, retries remain). -/
def c1s3 : CtrlState := ⟨mapSet c1s2.m { jobA1 with status := Status.error }, c1s2.q⟩

/-- State after the pending drain loop pops `jobB` (active count `0 < 1`) and
starts it. -/
def c1s4 : CtrlState :=
  ⟨mapSet c1s3.m { jobB1 with status := Status.downloading }, []⟩

/-- State after `jobA`'s retry loop re-activates it (`error → refreshing_url`,
line 1120) with no ceiling check: two active jobs under a ceiling of one. -/
def c1BadState : CtrlState :=
  ⟨mapSet c1s4.m { { jobA1 with status := Status.error } with
      status := Status.refreshing_url }, c1s4.q⟩

/-- A scheduled item, for the cancellation claim. -/
def jobSched : Job := { baseJob with
  uid := "s"
  name := "s"
  status := Status.scheduled
  sched := some 10 }

/-- A one-entry store holding the scheduled item. -/
def schedMap : JobMap := [("s", jobSched)]

/-- A store with one pending registered item and the matching pending queue. -/
def drainState : CtrlState := ⟨[("b", jobB1)], ["b"]⟩

/-- A store with one downloading job of speed 5, for the aggregate-speed
claims. -/
def speedMap : JobMap :=
  [("x", { baseJob with uid := "x", status := Status.downloading, speed := 5 })]

/-- Two same-window events for two distinct identifiers. -/
def twoUidEvents : List Event :=
  [⟨some "a", [("downloaded", 100)]⟩, ⟨some "b", [("downloaded", 7)]⟩]

/-- Two same-window events for one identifier: the later one overwrites
`downloaded` and leaves `name` untouched. -/
def oneUidEvents : List Event :=
  [⟨some "a", [("downloaded", 100), ("name", 3)]⟩, ⟨some "a", [("downloaded", 250)]⟩]

/-- An arming poll: action configured, one job downloading. -/
def pollArm : Poll := ⟨true, [Status.downloading]⟩

/-- A firing poll: action configured, every job completed. -/
def pollDone : Poll := ⟨true, [Status.completed]⟩

/-- A post-completion environment: every action configured, every fallible
helper failing, production mode. -/
def postEnvAllFail : PostEnv where
  download_thumbnail := true
  checksum := true
  use_server_timestamp := true
  test_mode := false
  thumbnail_fails := true
  timestamp_fails := true
  command_error := true

/-- A completed item with a completion command, a shutdown request and a
thumbnail. -/
def jobDone : Job := { baseJob with
  uid := "c"
  name := "c"
  status := Status.completed
  downloaded := 100
  on_completion_command := some "echo ok"
  shutdown_pc := true
  thumbnail_url := some "t.png" }

end FireDM

namespace FireDM

/-! ### Basic lemmas about the job map -/

theorem mapLookup_mapSet_self (m : JobMap) (d : Job) :
    mapLookup (mapSet m d) d.uid = some d := by
  induction m with
  | nil => simp [mapSet, mapLookup]
  | cons p rest ih =>
      obtain ⟨k, e⟩ := p
      by_cases h : k = d.uid
      · simp [mapSet, mapLookup, h]
      · simp [mapSet, mapLookup, h, ih]

theorem mapLookup_mapSet_ne (m : JobMap) (d : Job) (u : String)
    (h : u ≠ d.uid) : mapLookup (mapSet m d) u = mapLookup m u := by
  induction m with
  | nil => simp [mapSet, mapLookup, Ne.symm h]
  | cons p rest ih =>
      obtain ⟨k, e⟩ := p
      by_cases hk : k = d.uid
      · subst hk
        simp [mapSet, mapLookup, Ne.symm h]
      · by_cases hu : k = u
        · subst hu
          simp [mapSet, mapLookup, hk, h]
        · simp [mapSet, mapLookup, hk, hu, ih]

/-! ### Lemmas about the active-job count -/

theorem activeCount_cons (p : String × Job) (m : JobMap) :
    activeCount (p :: m) =
      (if p.2.status.isActive then 1 else 0) + activeCount m := by
  by_cases h : p.2.status.isActive <;>
    simp [activeCount, List.filter_cons, h, Nat.add_comm]

theorem activeCount_mapSet_le (m : JobMap) (d : Job) :
    activeCount (mapSet m d) ≤
      activeCount m + (if d.status.isActive then 1 else 0) := by
  induction m with
  | nil =>
      by_cases h : d.status.isActive <;>
        simp [mapSet, activeCount, List.filter_cons, h]
  | cons p rest ih =>
      obtain ⟨k, e⟩ := p
      by_cases h : k = d.uid
      · subst h
        simp only [mapSet, if_pos rfl, activeCount_cons, eq_self_iff_true, if_true]
        omega
      · simp only [mapSet, if_neg h, activeCount_cons]
        omega

theorem activeCount_mapSet_nonactive (m : JobMap) (d : Job)
    (h : d.status.isActive = false) :
    activeCount (mapSet m d) ≤ activeCount m := by
  have := activeCount_mapSet_le m d
  simp [h] at this
  exact this

theorem activeCount_mapSet_lookup (m : JobMap) (d e : Job)
    (h : mapLookup m d.uid = some e) :
    activeCount (mapSet m d) + (if e.status.isActive then 1 else 0) =
      activeCount m + (if d.status.isActive then 1 else 0) := by
  induction m with
  | nil => simp [mapLookup] at h
  | cons p rest ih =>
      obtain ⟨k, f⟩ := p
      by_cases hk : k = d.uid
      · subst hk
        simp only [mapLookup, eq_self_iff_true, if_true, Option.some.injEq] at h
        subst h
        simp only [mapSet, eq_self_iff_true, if_true, activeCount_cons]
        omega
      · simp only [mapLookup, if_neg hk] at h
        simp only [mapSet, if_neg hk, activeCount_cons]
        have := ih h
        omega

theorem activeCount_mapRemove_le (m : JobMap) (u : String) :
    activeCount (mapRemove m u) ≤ activeCount m := by
  induction m with
  | nil => simp [mapRemove]
  | cons p rest ih =>
      obtain ⟨k, e⟩ := p
      by_cases hk : k = u
      · simp only [mapRemove, if_pos hk, activeCount_cons]
        omega
      · simp only [mapRemove, if_neg hk, activeCount_cons]
        omega

/-! ### The concurrency ceiling along non-refresh controller actions -/

theorem step_preserves_bound {C : Config} {s sb : CtrlState}
    (h : Step C false s sb)
    (hinv : activeCount s.m ≤ C.max_concurrent_downloads) :
    activeCount sb.m ≤ C.max_concurrent_downloads := by
  cases h with
  | submit_start a s d hd hc =>
      have h1 := activeCount_mapSet_le (mapSet s.m d)
        { d with status := Status.downloading }
      simp [Status.isActive] at h1
      dsimp only
      omega
  | submit_pending a s d hd hc =>
      have h1 := activeCount_mapSet_nonactive (mapSet s.m d)
        { d with status := Status.pending } (by simp [Status.isActive])
      have h2 := activeCount_mapSet_nonactive s.m d hd
      dsimp only
      omega
  | attempt_end a s u d t hl hu hd ht =>
      have h1 : ({ d with status := t } : Job).status.isActive = false := by
        rcases ht with h | h | h <;> simp [h, Status.isActive]
      have h2 := activeCount_mapSet_nonactive s.m { d with status := t } h1
      dsimp only
      omega
  | refresh_end a s u d hl hu hd =>
      have h1 := activeCount_mapSet_lookup s.m
        { d with status := Status.downloading } d (by simpa [hu] using hl)
      rw [hd] at h1
      simp [Status.isActive] at h1
      dsimp only
      omega
  | drain_start a s u rest d hq hc hl hu hd =>
      have h1 := activeCount_mapSet_lookup s.m
        { d with status := Status.downloading } d (by simpa [hu] using hl)
      rw [hd] at h1
      simp [Status.isActive] at h1
      dsimp only
      omega
  | drain_drop a s u rest hq hc hd =>
      simpa using hinv
  | stop a s u d hl hu hd =>
      have h1 := activeCount_mapSet_nonactive s.m
        { d with status := Status.cancelled } (by simp [Status.isActive])
      dsimp only
      omega
  | schedule a s u d t now hl hu ht =>
      have h1 := activeCount_mapSet_nonactive s.m
        { d with sched := some t, status := Status.scheduled }
        (by simp [Status.isActive])
      dsimp only
      omega
  | delete a s u =>
      have h1 := activeCount_mapRemove_le s.m u
      dsimp only
      omega

theorem reach_preserves_bound {C : Config} {s0 s : CtrlState}
    (h : Reach C false s0 s)
    (h0 : activeCount s0.m ≤ C.max_concurrent_downloads) :
    activeCount s.m ≤ C.max_concurrent_downloads := by
  induction h with
  | refl => exact h0
  | tail hr hs ih => exact step_preserves_bound hs ih

/-- **C1 (counterexample).** The claimed invariant — in every reachable state
the number of jobs in `d_map` whose status is active never exceeds
`config.max_concurrent_downloads` — fails on the code: with a ceiling of one,
submit `jobA` (starts), submit `jobB` (queued pending), let `jobA`'s attempt
end in a transient error, let the pending drain loop start `jobB` (the active
count it reads is `0 < 1`), then let `jobA`'s retry loop execute line 1120
(`d.status = Status.refreshing_url`), which consults no ceiling: the store now
holds two active jobs under a ceiling of one. -/
theorem claim_C1_counterexample :
    Reach cfg1 true (⟨[], []⟩ : CtrlState) c1BadState ∧
    ¬ activeCount c1BadState.m ≤ cfg1.max_concurrent_downloads := by
  constructor
  · exact Reach.tail (Reach.tail (Reach.tail (Reach.tail (Reach.tail
      (Reach.refl _)
      (Step.submit_start true _ jobA (by decide) (by decide)))
      (Step.submit_pending true _ jobB (by decide) (by decide)))
      (Step.attempt_end true _ "a" jobA1 Status.error (by decide) (by decide)
        (by decide) (Or.inr (Or.inl rfl))))
      (Step.drain_start true _ "b" [] jobB1 (by decide) (by decide) (by decide)
        (by decide) (by decide)))
      (Step.refresh_start _ "a" { jobA1 with status := Status.error }
        (by decide) (by decide) (by decide))
  · decide

/-- **C1 (amended).** The two admission guards hold as stated — a `runNow`
submission that finds the active count at or above the ceiling does not start
execution (the job is set `pending` and appended to the FIFO queue, no
transfer attempt runs), and the pending drain loop hands a queued job to
`download` only when the active count is below the ceiling — and the ceiling
invariant holds for every state reachable through the controller actions
other than the retry loop's `error → refreshing_url` re-activation (line
1120), which is the one transition that re-activates a job without a ceiling
check (see the counterexample). -/
theorem claim_C1_amended (C : Config) :
    (∀ s0 s : CtrlState,
        activeCount s0.m ≤ C.max_concurrent_downloads →
        Reach C false s0 s →
        activeCount s.m ≤ C.max_concurrent_downloads) ∧
    (∀ (env : Env) (engine : Nat → Status) (fuel : Nat) (s : CtrlState)
        (d d1 : Job),
        preChecks env s.m d fuel = some d1 →
        C.max_concurrent_downloads ≤ activeCount (mapSet s.m d1) →
        download C env engine fuel s d false =
          (⟨mapSet (mapSet s.m d1) { d1 with status := Status.pending },
            s.q ++ [d1.uid]⟩,
           ⟨true, true, none⟩)) ∧
    (∀ (env : Env) (engine : Nat → Status) (fuel : Nat) (s : CtrlState)
        (r : String × DlOutcome),
        (drainIter C env engine fuel s).2 = some r →
        activeCount s.m < C.max_concurrent_downloads) := by
  refine ⟨?_, ?_, ?_⟩
  · intro s0 s h0 h
    exact reach_preserves_bound h h0
  · intro env engine fuel s d d1 hpre hc
    simp [download, hpre, hc]
  · intro env engine fuel s r h
    by_cases hc : activeCount s.m < C.max_concurrent_downloads
    · exact hc
    · simp [drainIter, hc] at h

/-- Witness for C1: the amended theorem evaluated on concrete states — the
invariant after one admitted submission, a ceiling-reached submission that
queues `jobB` without starting it, and a drain iteration that did start a job
(so its active count was below the ceiling). -/
theorem claim_C1_witness :
    activeCount c1s1.m ≤ cfg1.max_concurrent_downloads ∧
    download cfg1 envOk engineOk 3 c1s1 jobB false =
      (⟨mapSet (mapSet c1s1.m jobB) { jobB with status := Status.pending },
        c1s1.q ++ [jobB.uid]⟩,
       ⟨true, true, none⟩) ∧
    activeCount drainState.m < cfg1.max_concurrent_downloads := by
  obtain ⟨h1, h2, h3⟩ := claim_C1_amended cfg1
  refine ⟨?_, ?_, ?_⟩
  · exact h1 ⟨[], []⟩ c1s1 (by decide)
      (Reach.tail (Reach.refl _)
        (Step.submit_start false _ jobA (by decide) (by decide)))
  · exact h2 envOk engineOk 3 c1s1 jobB jobB (by decide) (by decide)
  · exact h3 envOk engineOk 3 drainState
      ("b", ⟨true, false, some ⟨Status.completed, 1, 0, false⟩⟩) (by decide)

/-! ### The retry / URL-refresh loop -/

theorem retryLoopAux_allError (retries : Nat) (engine : Nat → Status)
    (h : ∀ k, engine k = Status.error) :
    ∀ fuel n att ref surf last, n + fuel = retries + 1 → 1 ≤ fuel →
    retryLoopAux retries engine n fuel att ref surf last =
      ⟨Status.error, att + fuel, ref + (fuel - 1), true⟩ := by
  intro fuel
  induction fuel with
  | zero =>
      intro n att ref surf last h1 h2
      omega
  | succ f ih =>
      intro n att ref surf last h1 h2
      by_cases hn : retries ≤ n
      · have hf : f = 0 := by omega
        subst hf
        simp [retryLoopAux, h n, hn]
      · have hf : 1 ≤ f := by omega
        have step : retryLoopAux retries engine n (f + 1) att ref surf last =
            retryLoopAux retries engine (n + 1) f (att + 1) (ref + 1) surf
              (engine n) := by
          simp [retryLoopAux, h n, hn]
        rw [step, h n, ih (n + 1) (att + 1) (ref + 1) surf Status.error
          (by omega) hf]
        simp only [LoopResult.mk.injEq, and_true, true_and]
        omega

theorem retryLoop_allError (retries : Nat) (engine : Nat → Status)
    (h : ∀ k, engine k = Status.error) :
    retryLoop retries engine = ⟨Status.error, retries + 1, retries, true⟩ := by
  have := retryLoopAux_allError retries engine h (retries + 1) 0 0 0 false
    Status.downloading (by omega) (by omega)
  simpa using this

theorem retryLoopAux_cancel (retries : Nat) (engine : Nat → Status) (k : Nat)
    (hk : k ≤ retries)
    (hpre : ∀ j, j < k → engine j = Status.error)
    (hc : engine k = Status.cancelled) :
    ∀ fuel n att ref surf last, n + fuel = retries + 1 → n ≤ k →
    retryLoopAux retries engine n fuel att ref surf last =
      ⟨Status.cancelled, att + (k - n) + 1, ref + (k - n), surf⟩ := by
  intro fuel
  induction fuel with
  | zero =>
      intro n att ref surf last h1 h2
      omega
  | succ f ih =>
      intro n att ref surf last h1 h2
      by_cases hn : n = k
      · subst hn
        simp [retryLoopAux, hc]
      · have hlt : n < k := by omega
        have hnr : ¬ retries ≤ n := by omega
        have step : retryLoopAux retries engine n (f + 1) att ref surf last =
            retryLoopAux retries engine (n + 1) f (att + 1) (ref + 1) surf
              (engine n) := by
          simp [retryLoopAux, hpre n hlt, hnr]
        rw [step, hpre n hlt, ih (n + 1) (att + 1) (ref + 1) surf Status.error
          (by omega) (by omega)]
        simp only [LoopResult.mk.injEq, and_true, true_and]
        omega

theorem retryLoop_cancel (retries : Nat) (engine : Nat → Status) (k : Nat)
    (hk : k ≤ retries)
    (hpre : ∀ j, j < k → engine j = Status.error)
    (hc : engine k = Status.cancelled) :
    retryLoop retries engine = ⟨Status.cancelled, k + 1, k, false⟩ := by
  have := retryLoopAux_cancel retries engine k hk hpre hc (retries + 1) 0 0 0
    false Status.downloading (by omega) (by omega)
  simpa using this

/-- **C2.** For a job admitted with a free slot whose every transfer attempt
ends in `error`, `download` performs exactly `config.refresh_url_retries`
URL-refresh cycles and `refresh_url_retries + 1` transfer attempts, surfaces
the "too many connection errors" failure, leaves the job in `d_map` with
status `error`, and returns (no further attempt without re-submission). -/
theorem claim_C2 (C : Config) (env : Env) (engine : Nat → Status) (fuel : Nat)
    (s : CtrlState) (d d1 : Job)
    (hpre : preChecks env s.m d fuel = some d1)
    (hslot : activeCount (mapSet s.m d1) < C.max_concurrent_downloads)
    (herr : ∀ n, engine n = Status.error) :
    download C env engine fuel s d false =
      (⟨mapSet (mapSet s.m d1) { d1 with status := Status.error }, s.q⟩,
       ⟨true, false,
        some ⟨Status.error, C.refresh_url_retries + 1, C.refresh_url_retries,
              true⟩⟩) ∧
    mapLookup (download C env engine fuel s d false).1.m d1.uid =
      some { d1 with status := Status.error } := by
  have hloop := retryLoop_allError C.refresh_url_retries engine herr
  have hnot : ¬ C.max_concurrent_downloads ≤ activeCount (mapSet s.m d1) := by
    omega
  have heq : download C env engine fuel s d false =
      (⟨mapSet (mapSet s.m d1) { d1 with status := Status.error }, s.q⟩,
       ⟨true, false,
        some ⟨Status.error, C.refresh_url_retries + 1, C.refresh_url_retries,
              true⟩⟩) := by
    simp [download, hpre, hnot, hloop]
  refine ⟨heq, ?_⟩
  rw [heq]
  have := mapLookup_mapSet_self (mapSet s.m d1)
    { d1 with status := Status.error }
  simpa using this

/-- Witness for C2: with `max-retries = 2` and an engine that always fails
transiently, the job ends in `error` after 3 attempts and 2 refresh cycles,
the failure is surfaced, and the item is still in the store. -/
theorem claim_C2_witness :
    download cfg1 envOk engineErr 3 ⟨[], []⟩ jobA false =
      (⟨mapSet (mapSet ([] : JobMap) jobA) { jobA with status := Status.error },
        []⟩,
       ⟨true, false, some ⟨Status.error, 3, 2, true⟩⟩) ∧
    mapLookup (download cfg1 envOk engineErr 3 ⟨[], []⟩ jobA false).1.m
        jobA.uid = some { jobA with status := Status.error } := by
  have := claim_C2 cfg1 envOk engineErr 3 ⟨[], []⟩ jobA jobA (by decide)
    (by decide) (fun n => rfl)
  simpa using this

/-- **C6 (counterexample).** `stop_download` on a job in the non-terminal
status `scheduled` leaves it unchanged: the guard of line 1157 covers only
the active statuses and `pending`, so the claim fails for `scheduled`. -/
theorem claim_C6_counterexample :
    mapLookup (stop_download schedMap "s") "s" = some jobSched ∧
    jobSched.status = Status.scheduled ∧
    ¬ jobSched.status = Status.cancelled := by decide

/-- **C6 (amended).** For a job whose status is `pending`, `downloading` or
`refreshing_url` (active or pending — not `scheduled`), `stop_download` sets
the status to `cancelled`; and a `cancelled` status halts the retry loop at
once: if attempt `k` ends cancelled while retries remain, the loop stops
after `k + 1` attempts and `k` refreshes, with no refresh after the
cancellation and no surfaced connection-error failure. -/
theorem claim_C6_amended :
    (∀ (m : JobMap) (u : String) (d : Job),
        mapLookup m u = some d → d.uid = u →
        d.status = Status.pending ∨ d.status = Status.downloading ∨
          d.status = Status.refreshing_url →
        mapLookup (stop_download m u) u =
          some { d with status := Status.cancelled }) ∧
    (∀ (retries : Nat) (engine : Nat → Status) (k : Nat),
        k ≤ retries → (∀ j, j < k → engine j = Status.error) →
        engine k = Status.cancelled →
        retryLoop retries engine = ⟨Status.cancelled, k + 1, k, false⟩) := by
  constructor
  · intro m u d hl hu hs
    have hguard : (d.status.isActive = true ∨ d.status = Status.pending) := by
      rcases hs with h | h | h <;> simp [h, Status.isActive]
    rw [stop_download, hl]
    dsimp only
    rw [if_pos hguard]
    have := mapLookup_mapSet_self m { d with status := Status.cancelled }
    simpa [hu] using this
  · intro retries engine k hk hpre hc
    exact retryLoop_cancel retries engine k hk hpre hc

/-- Witness for C6: stopping the registered pending job cancels it, and an
engine cancelled during the third attempt (retries still available would have
allowed more) stops the loop at 3 attempts / 2 refreshes. -/
theorem claim_C6_witness :
    mapLookup (stop_download drainState.m "b") "b" =
      some { jobB1 with status := Status.cancelled } ∧
    retryLoop 2 engineCancel2 = ⟨Status.cancelled, 3, 2, false⟩ := by
  obtain ⟨h1, h2⟩ := claim_C6_amended
  refine ⟨?_, ?_⟩
  · exact h1 drainState.m "b" jobB1 (by decide) (by decide)
      (Or.inl (by decide))
  · exact h2 2 engineCancel2 2 (by omega)
      (fun j hj => by simp [engineCancel2, hj]) (by decide)

/-- **C8.** A submission that fails pre-flight validation is not registered:
`download` returns with the controller state untouched (`d_map` and the
pending queue unchanged), no `new`-command report, no observer callback
registration, no `d_map` insertion, and no transfer attempt. -/
theorem claim_C8 (C : Config) (env : Env) (engine : Nat → Status) (fuel : Nat)
    (s : CtrlState) (d : Job) (download_later : Bool)
    (h : preChecks env s.m d fuel = none) :
    download C env engine fuel s d download_later = (s, ⟨false, false, none⟩) := by
  simp [download, h]

/-- Witness for C8: each failure reason listed by the claim — missing content
type, HTML content type, unsupported `f4m` transfer mode, missing ffmpeg for a
media type, nonexistent destination folder, empty file name — makes
`_pre_download_checks` fail (silent mode) and `download` return with the
state unchanged and nothing started. -/
theorem claim_C8_witness :
    download cfg1 envOk engineOk 3 ⟨[], []⟩ { jobA with jobType := none }
      false = (⟨[], []⟩, ⟨false, false, none⟩) ∧
    download cfg1 envOk engineOk 3 ⟨[], []⟩
      { jobA with jobType := some "text/html" } false =
      (⟨[], []⟩, ⟨false, false, none⟩) ∧
    download cfg1 envOk engineOk 3 ⟨[], []⟩
      { jobA with subtype_list := ["f4m"] } false =
      (⟨[], []⟩, ⟨false, false, none⟩) ∧
    download cfg1 { envOk with ffmpeg_available := false } engineOk 3 ⟨[], []⟩
      { jobA with jobType := some "video" } false =
      (⟨[], []⟩, ⟨false, false, none⟩) ∧
    download cfg1 { envOk with folderCheck := fun _ => FolderResult.notFound }
      engineOk 3 ⟨[], []⟩ jobA false = (⟨[], []⟩, ⟨false, false, none⟩) ∧
    download cfg1 envOk engineOk 3 ⟨[], []⟩ { jobA with name := "" } false =
      (⟨[], []⟩, ⟨false, false, none⟩) := by
  exact ⟨claim_C8 _ _ _ _ _ _ _ (by decide), claim_C8 _ _ _ _ _ _ _ (by decide),
         claim_C8 _ _ _ _ _ _ _ (by decide), claim_C8 _ _ _ _ _ _ _ (by decide),
         claim_C8 _ _ _ _ _ _ _ (by decide), claim_C8 _ _ _ _ _ _ _ (by decide)⟩

/-- **C10.** `schedule_start` with a past target date, or with a value that is
not a `datetime`, leaves the job record completely unchanged: no `sched`
field is set and the status is not changed to `scheduled`. -/
theorem claim_C10 (d : Job) (target_date : Option Nat) (now : Nat)
    (h : target_date = none ∨ ∃ t, target_date = some t ∧ t < now) :
    schedule_start (some d) target_date now = some d := by
  rcases h with h | ⟨t, ht, hlt⟩
  · subst h
    rfl
  · subst ht
    simp [schedule_start, hlt]

/-- Witness for C10: a target in the past (3 < 5) and a non-datetime target
both leave the record untouched. -/
theorem claim_C10_witness :
    schedule_start (some baseJob) (some 3) 5 = some baseJob ∧
    schedule_start (some baseJob) none 5 = some baseJob :=
  ⟨claim_C10 baseJob (some 3) 5 (Or.inr ⟨3, rfl, by omega⟩),
   claim_C10 baseJob none 5 (Or.inl rfl)⟩

/-! ### The pending drain loop -/

theorem finalCheck_status (env : Env) (d d2 : Job)
    (h : finalCheck env d = some d2) : d2.status = d.status := by
  unfold finalCheck at h
  split at h
  · simp at h
  · simp only [Option.some.injEq] at h
    subst h
    rfl

theorem preChecks_status :
    ∀ (fuel : Nat) (env : Env) (m : JobMap) (d d2 : Job),
      preChecks env m d fuel = some d2 → d2.status = d.status := by
  intro fuel
  induction fuel with
  | zero =>
      intro env m d d2 h
      simp [preChecks] at h
  | succ f ih =>
      intro env m d d2 h
      simp only [preChecks] at h
      repeat' split at h
      all_goals try (unfold resumeChecks at h; repeat' split at h)
      all_goals first
        | (have hx := ih env m _ d2 h
           exact hx)
        | (have hx := finalCheck_status env _ d2 h
           exact hx)
        | exact Option.noConfusion h

theorem download_pending_queue (C : Config) (env : Env) (engine : Nat → Status)
    (fuel : Nat) (m : JobMap) (q : List String) (dd : Job)
    (hp : dd.status = Status.pending)
    (hc : activeCount m < C.max_concurrent_downloads) :
    (download C env engine fuel ⟨m, q⟩ dd false).1.q = q := by
  unfold download
  cases hpre : preChecks env m dd fuel with
  | none => rfl
  | some d1 =>
      have hst : d1.status = Status.pending := by
        rw [preChecks_status fuel env m dd d1 hpre, hp]
      have hle : activeCount (mapSet m d1) ≤ activeCount m :=
        activeCount_mapSet_nonactive m d1 (by simp [hst, Status.isActive])
      have hnot : ¬ C.max_concurrent_downloads ≤ activeCount (mapSet m d1) := by
        omega
      simp [hnot]

theorem retryLoopAux_succ (retries : Nat) (engine : Nat → Status) (n fuel att
    ref : Nat) (surf : Bool) (last : Status) :
    retryLoopAux retries engine n (fuel + 1) att ref surf last =
      if engine n ≠ Status.error then ⟨engine n, att + 1, ref, surf⟩
      else if retries ≤ n then
        retryLoopAux retries engine (n + 1) fuel (att + 1) ref true (engine n)
      else
        retryLoopAux retries engine (n + 1) fuel (att + 1) (ref + 1) surf
          (engine n) := rfl

theorem retryLoopAux_attempts_ge (retries : Nat) (engine : Nat → Status) :
    ∀ (fuel n att ref : Nat) (surf : Bool) (last : Status),
      att ≤ (retryLoopAux retries engine n fuel att ref surf last).attempts := by
  intro fuel
  induction fuel with
  | zero =>
      intro n att ref surf last
      simp [retryLoopAux]
  | succ f ih =>
      intro n att ref surf last
      rw [retryLoopAux_succ]
      split
      · simp
      · split
        · exact Nat.le_trans (by omega) (ih (n + 1) (att + 1) ref true _)
        · exact Nat.le_trans (by omega) (ih (n + 1) (att + 1) (ref + 1) surf _)

theorem retryLoop_attempts_pos (retries : Nat) (engine : Nat → Status) :
    1 ≤ (retryLoop retries engine).attempts := by
  unfold retryLoop
  rw [retryLoopAux_succ]
  split
  · simp
  · split
    · exact Nat.le_trans (by omega)
        (retryLoopAux_attempts_ge retries engine retries 1 1 0 true _)
    · exact Nat.le_trans (by omega)
        (retryLoopAux_attempts_ge retries engine retries 1 1 1 false _)

theorem drainN_sublist (C : Config) (env : Env) (engine : Nat → Status)
    (fuel : Nat) :
    ∀ (n : Nat) (s : CtrlState),
      ((drainN C env engine fuel n s).2).Sublist s.q := by
  intro n
  induction n with
  | zero =>
      intro s
      simp [drainN]
  | succ k ih =>
      intro s
      simp only [drainN]
      by_cases hc : activeCount s.m < C.max_concurrent_downloads
      · cases hq : s.q with
        | nil =>
            simp only [drainIter, hc, if_pos, hq]
            simpa [hq] using ih s
        | cons u rest =>
            cases hl : mapLookup s.m u with
            | none =>
                simp only [drainIter, hc, if_pos, hq, hl]
                exact List.Sublist.cons u (ih ⟨s.m, rest⟩)
            | some dd =>
                by_cases hp : dd.status = Status.pending
                · simp only [drainIter, hc, if_pos, hq, hl, hp, if_true]
                  simp only [List.singleton_append]
                  have hqq := download_pending_queue C env engine fuel s.m rest
                    dd hp hc
                  have ihx := ih (download C env engine fuel ⟨s.m, rest⟩ dd
                    false).1
                  rw [hqq] at ihx
                  exact List.Sublist.cons₂ u ihx
                · simp only [drainIter, hc, if_pos, hq, hl, hp, if_neg,
                    if_false]
                  exact List.Sublist.cons u (ih ⟨s.m, rest⟩)
      · simp only [drainIter, hc, if_neg, if_false]
        exact ih s

/-- **C5.** One iteration of the pending drain loop: it touches nothing while
the active count is at or above the ceiling; below the ceiling it pops exactly
the head of the FIFO queue; a popped job is handed to `download` only if its
status is still `pending` (and only with the count below the ceiling), a
popped job whose status changed (e.g. cancelled while queued) is silently
dropped with the store untouched; a popped pending job that passes the
re-checks actually starts (at least one transfer attempt runs); and over any
number of iterations the sequence of jobs handed to `download` is a sublist
of the initial queue, in order — strict FIFO, no reordering. -/
theorem claim_C5 (C : Config) (env : Env) (engine : Nat → Status)
    (fuel : Nat) :
    (∀ s : CtrlState, C.max_concurrent_downloads ≤ activeCount s.m →
        drainIter C env engine fuel s = (s, none)) ∧
    (∀ (s : CtrlState) (u : String) (rest : List String),
        activeCount s.m < C.max_concurrent_downloads → s.q = u :: rest →
        (drainIter C env engine fuel s).1.q = rest) ∧
    (∀ (s : CtrlState) (u : String) (rest : List String) (dd : Job),
        activeCount s.m < C.max_concurrent_downloads → s.q = u :: rest →
        mapLookup s.m u = some dd → dd.status ≠ Status.pending →
        drainIter C env engine fuel s = (⟨s.m, rest⟩, none)) ∧
    (∀ (s : CtrlState) (r : String × DlOutcome),
        (drainIter C env engine fuel s).2 = some r →
        ∃ (rest : List String) (dd : Job),
          s.q = r.1 :: rest ∧
          activeCount s.m < C.max_concurrent_downloads ∧
          mapLookup s.m r.1 = some dd ∧ dd.status = Status.pending) ∧
    (∀ (s : CtrlState) (u : String) (rest : List String) (dd d1 : Job),
        activeCount s.m < C.max_concurrent_downloads → s.q = u :: rest →
        mapLookup s.m u = some dd → dd.status = Status.pending →
        preChecks env s.m dd fuel = some d1 →
        (drainIter C env engine fuel s).2 =
          some (u, ⟨true, false,
                    some (retryLoop C.refresh_url_retries engine)⟩) ∧
        1 ≤ (retryLoop C.refresh_url_retries engine).attempts) ∧
    (∀ (n : Nat) (s : CtrlState),
        ((drainN C env engine fuel n s).2).Sublist s.q) := by
  refine ⟨?_, ?_, ?_, ?_, ?_, drainN_sublist C env engine fuel⟩
  · intro s hc
    simp [drainIter, show ¬ activeCount s.m < C.max_concurrent_downloads by
      omega]
  · intro s u rest hc hq
    cases hl : mapLookup s.m u with
    | none => simp [drainIter, hc, hq, hl]
    | some dd =>
        by_cases hp : dd.status = Status.pending
        · simp only [drainIter, hc, if_pos, hq, hl, hp, if_true]
          exact download_pending_queue C env engine fuel s.m rest dd hp hc
        · simp [drainIter, hc, hq, hl, hp]
  · intro s u rest dd hc hq hl hp
    simp [drainIter, hc, hq, hl, hp]
  · intro s r h
    by_cases hc : activeCount s.m < C.max_concurrent_downloads
    · cases hq : s.q with
      | nil => simp [drainIter, hc, hq] at h
      | cons u rest =>
          cases hl : mapLookup s.m u with
          | none => simp [drainIter, hc, hq, hl] at h
          | some dd =>
              by_cases hp : dd.status = Status.pending
              · simp only [drainIter, hc, if_pos, hq, hl, hp, if_true] at h
                simp only [Option.some.injEq] at h
                subst h
                exact ⟨rest, dd, rfl, hc, hl, hp⟩
              · simp [drainIter, hc, hq, hl, hp] at h
    · simp [drainIter, hc] at h
  · intro s u rest dd d1 hc hq hl hp hpre
    constructor
    · have hst : d1.status = Status.pending := by
        rw [preChecks_status fuel env s.m dd d1 hpre, hp]
      have hle : activeCount (mapSet s.m d1) ≤ activeCount s.m :=
        activeCount_mapSet_nonactive s.m d1 (by simp [hst, Status.isActive])
      have hnot : ¬ C.max_concurrent_downloads ≤ activeCount (mapSet s.m d1) :=
        by omega
      simp only [drainIter, hc, if_pos, hq, hl, hp, if_true]
      simp [download, hpre, hnot]
    · exact retryLoop_attempts_pos C.refresh_url_retries engine

/-- Witness for C5: on the concrete pending state — one registered pending
job `"b"` at the head of the queue, active count `0 < 1` — the drain
iteration starts it; a cancelled queued copy is silently dropped with the
store untouched; at the ceiling nothing is popped; and two iterations hand
out `["b"]`, a sublist of the initial queue. -/
theorem claim_C5_witness :
    drainIter cfg1 envOk engineOk 3 ⟨c1s1.m, ["b"]⟩ = (⟨c1s1.m, ["b"]⟩, none) ∧
    (drainIter cfg1 envOk engineOk 3 drainState).1.q = [] ∧
    drainIter cfg1 envOk engineOk 3
        ⟨[("b", { jobB1 with status := Status.cancelled })], ["b"]⟩ =
      (⟨[("b", { jobB1 with status := Status.cancelled })], []⟩, none) ∧
    (drainIter cfg1 envOk engineOk 3 drainState).2 =
      some ("b", ⟨true, false, some (retryLoop 2 engineOk)⟩) ∧
    ((drainN cfg1 envOk engineOk 3 2 drainState).2).Sublist drainState.q := by
  obtain ⟨h1, h2, h3, h4, h5, h6⟩ := claim_C5 cfg1 envOk engineOk 3
  refine ⟨?_, ?_, ?_, ?_, ?_⟩
  · exact h1 ⟨c1s1.m, ["b"]⟩ (by decide)
  · exact h2 drainState "b" [] (by decide) (by decide)
  · exact h3 ⟨[("b", { jobB1 with status := Status.cancelled })], ["b"]⟩ "b" []
      { jobB1 with status := Status.cancelled } (by decide) (by decide)
      (by decide) (by decide)
  · exact (h5 drainState "b" [] jobB1 jobB1 (by decide) (by decide) (by decide)
      (by decide) (by decide)).1
  · exact h6 2 drainState

/-! ### The event aggregator: dict and buffer lemmas -/

theorem dictLookup_dictInsert (d : Fields) (k : String) (v : Nat)
    (k2 : String) :
    dictLookup (dictInsert d k v) k2 =
      if k = k2 then some v else dictLookup d k2 := by
  induction d with
  | nil => simp [dictInsert, dictLookup]
  | cons p rest ih =>
      obtain ⟨k1, v1⟩ := p
      by_cases h1 : k1 = k
      · subst h1
        by_cases h2 : k1 = k2 <;> simp [dictInsert, dictLookup, h2]
      · by_cases h2 : k1 = k2
        · subst h2
          simp [dictInsert, dictLookup, h1, Ne.symm h1]
        · simp [dictInsert, dictLookup, h1, h2, ih]

theorem dictUpdate_append (d : Fields) (a b : Fields) :
    dictUpdate d (a ++ b) = dictUpdate (dictUpdate d a) b := by
  simp [dictUpdate, List.foldl_append]

theorem dictLookup_dictUpdate (e : Fields) :
    ∀ (d : Fields) (k : String),
      dictLookup (dictUpdate d e) k =
        match lastVal e k with
        | some v => some v
        | none => dictLookup d k := by
  induction e with
  | nil => intro d k; simp [dictUpdate, lastVal]
  | cons p rest ih =>
      intro d k
      have step : dictUpdate d (p :: rest) =
          dictUpdate (dictInsert d p.1 p.2) rest := rfl
      rw [step, ih]
      cases hl : lastVal rest k with
      | some v => simp [lastVal, hl]
      | none =>
          by_cases hk : p.1 = k <;>
            simp [lastVal, hl, dictLookup_dictInsert, hk]

theorem bufLookup_bufUpsert_self (u : String) (fs : Fields) :
    ∀ buf : Buffer,
      bufLookup (bufUpsert u fs buf) u =
        some (dictUpdate ((bufLookup buf u).getD []) fs) := by
  intro buf
  induction buf with
  | nil => simp [bufUpsert, bufLookup]
  | cons p rest ih =>
      obtain ⟨k, d⟩ := p
      by_cases hk : k = u
      · subst hk
        simp [bufUpsert, bufLookup]
      · simp [bufUpsert, bufLookup, hk, ih]

theorem bufLookup_bufUpsert_ne (u : String) (fs : Fields) (w : String)
    (h : w ≠ u) :
    ∀ buf : Buffer, bufLookup (bufUpsert u fs buf) w = bufLookup buf w := by
  intro buf
  induction buf with
  | nil => simp [bufUpsert, bufLookup, Ne.symm h]
  | cons p rest ih =>
      obtain ⟨k, d⟩ := p
      by_cases hk : k = u
      · subst hk
        simp [bufUpsert, bufLookup, Ne.symm h]
      · by_cases hw : k = w
        · subst hw
          simp [bufUpsert, bufLookup, hk]
        · simp [bufUpsert, bufLookup, hk, hw, ih]

theorem eventFieldsFor_cons (e : Event) (rest : List Event) (u : String) :
    eventFieldsFor (e :: rest) u =
      (if goodUid e = some u then e.fields else []) ++ eventFieldsFor rest u := by
  by_cases h : goodUid e = some u <;>
    simp [eventFieldsFor, List.filter_cons, h]

theorem bufLookup_flush (u : String) :
    ∀ (evs : List Event) (buf : Buffer),
      bufLookup (evs.foldl bufAdd buf) u =
        match bufLookup buf u with
        | some d0 => some (dictUpdate d0 (eventFieldsFor evs u))
        | none =>
            if evs.any (fun e => decide (goodUid e = some u)) then
              some (dictUpdate [] (eventFieldsFor evs u))
            else none := by
  intro evs
  induction evs with
  | nil =>
      intro buf
      cases h : bufLookup buf u <;>
        simp [eventFieldsFor, dictUpdate, h]
  | cons e rest ih =>
      intro buf
      cases hg : goodUid e with
      | none =>
          have hne : ¬ goodUid e = some u := by simp [hg]
          simp only [List.foldl_cons, bufAdd, hg]
          rw [ih buf, eventFieldsFor_cons]
          simp [hne]
      | some w =>
          by_cases hw : w = u
          · subst hw
            have heq : goodUid e = some w := hg
            simp only [List.foldl_cons, bufAdd, hg]
            rw [ih (bufUpsert w e.fields buf),
              bufLookup_bufUpsert_self w e.fields buf, eventFieldsFor_cons]
            cases h0 : bufLookup buf w <;>
              simp [heq, h0, dictUpdate_append]
          · have hne : ¬ goodUid e = some u := by simp [hg, hw]
            simp only [List.foldl_cons, bufAdd, hg]
            rw [ih (bufUpsert w e.fields buf),
              bufLookup_bufUpsert_ne w e.fields u (Ne.symm hw) buf,
              eventFieldsFor_cons]
            simp [hne]

theorem bufUpsert_keys (u : String) (fs : Fields) :
    ∀ buf : Buffer,
      (bufUpsert u fs buf).map Prod.fst =
        if u ∈ buf.map Prod.fst then buf.map Prod.fst
        else buf.map Prod.fst ++ [u] := by
  intro buf
  induction buf with
  | nil => simp [bufUpsert]
  | cons p rest ih =>
      obtain ⟨k, d⟩ := p
      by_cases hk : k = u
      · subst hk
        simp [bufUpsert]
      · by_cases hm : u ∈ List.map Prod.fst rest <;>
          simp [bufUpsert, hk, ih, Ne.symm hk, hm]

theorem flush_keys :
    ∀ (evs : List Event) (buf : Buffer),
      (evs.foldl bufAdd buf).map Prod.fst =
        firstSeenAux (buf.map Prod.fst) evs := by
  intro evs
  induction evs with
  | nil => intro buf; simp [firstSeenAux]
  | cons e rest ih =>
      intro buf
      cases hg : goodUid e with
      | none => simp only [List.foldl_cons, bufAdd, hg, firstSeenAux, ih]
      | some w =>
          simp only [List.foldl_cons, bufAdd, hg, firstSeenAux]
          rw [ih (bufUpsert w e.fields buf), bufUpsert_keys w e.fields buf]

theorem firstSeenAux_count (u : String) :
    ∀ (evs : List Event) (acc : List String),
      (firstSeenAux acc evs).count u =
        if u ∈ acc then acc.count u
        else if evs.any (fun e => decide (goodUid e = some u)) then 1
        else 0 := by
  intro evs
  induction evs with
  | nil =>
      intro acc
      by_cases h : u ∈ acc <;>
        simp [firstSeenAux, h, List.count_eq_zero_of_not_mem]
  | cons e rest ih =>
      intro acc
      cases hg : goodUid e with
      | none =>
          have hne : ¬ goodUid e = some u := by simp [hg]
          simp only [firstSeenAux, hg]
          rw [ih acc]
          simp [hne]
      | some w =>
          by_cases hw : w ∈ acc
          · simp only [firstSeenAux, hg, if_pos hw]
            rw [ih acc]
            by_cases hu : u ∈ acc
            · simp [hu]
            · have hwu : ¬ goodUid e = some u := by
                simp only [hg, Option.some.injEq]
                intro heq
                exact hu (heq ▸ hw)
              simp [hu, hwu]
          · simp only [firstSeenAux, hg, if_neg hw]
            rw [ih (acc ++ [w])]
            by_cases huw : u = w
            · subst huw
              have hu : u ∉ acc := hw
              have heq : goodUid e = some u := hg
              simp [hu, List.count_append,
                List.count_eq_zero_of_not_mem hu, heq]
            · have hwne : ¬ w = u := fun hh => huw hh.symm
              have hcnt : List.count u (acc ++ [w]) = List.count u acc := by
                simp [List.count_append, List.count_cons, hwne]
              have hwu : ¬ goodUid e = some u := by
                rw [hg]
                simp only [Option.some.injEq]
                exact hwne
              by_cases hu : u ∈ acc
              · have : u ∈ acc ++ [w] := by simp [hu]
                simp [this, hu, hcnt]
              · have : u ∉ acc ++ [w] := by
                  simp [List.mem_append, huw, hu]
                simp [this, hu, hwu, hcnt]

theorem buffer_countP_update (u : String) (m : JobMap) :
    ∀ b : Buffer,
      ((b.map (fun p => update_view m p.1 p.2)).flatten).countP
          (isUpdateFor u) = (b.map Prod.fst).count u := by
  intro b
  induction b with
  | nil => simp
  | cons p rest ih =>
      obtain ⟨k, d⟩ := p
      simp only [List.map_cons, List.flatten_cons, List.countP_append, ih]
      by_cases hk : k = u <;>
        simp [update_view, List.countP_cons, isUpdateFor, hk,
          List.count_cons, Nat.add_comm]

theorem buffer_emittedUids (m : JobMap) :
    ∀ b : Buffer,
      emittedUids ((b.map (fun p => update_view m p.1 p.2)).flatten) =
        b.map Prod.fst := by
  intro b
  induction b with
  | nil => simp [emittedUids]
  | cons p rest ih =>
      obtain ⟨k, d⟩ := p
      simp [emittedUids, update_view] at ih ⊢
      exact ih

theorem buffer_countP_totalSpeed (m : JobMap) :
    ∀ b : Buffer,
      ((b.map (fun p => update_view m p.1 p.2)).flatten).countP
          isTotalSpeedMsg = b.length := by
  intro b
  induction b with
  | nil => simp
  | cons p rest ih =>
      simp only [List.map_cons, List.flatten_cons, List.countP_append, ih]
      simp [update_view, List.countP_cons, isTotalSpeedMsg, Nat.add_comm]

theorem buffer_totalSpeed_member (m : JobMap) :
    ∀ (b : Buffer) (msg : ViewMsg),
      msg ∈ (b.map (fun p => update_view m p.1 p.2)).flatten →
      isTotalSpeedMsg msg = true →
      msg = ViewMsg.totalSpeed (totalSpeedOf m) := by
  intro b
  induction b with
  | nil =>
      intro msg h hts
      simp at h
  | cons p rest ih =>
      intro msg h hts
      simp only [List.map_cons, List.flatten_cons, List.mem_append] at h
      rcases h with hblk | hrest
      · have hor : msg = ViewMsg.totalSpeed (totalSpeedOf m) ∨
            msg = ViewMsg.update p.1 p.2 := by
          simpa [update_view] using hblk
        rcases hor with h1 | h1
        · exact h1
        · subst h1
          simp [isTotalSpeedMsg] at hts
      · exact ih msg hrest hts

/-- **C3.** For a flush window draining the queued events `evs`: an
identifier `u` carried by at least one event gets exactly one consolidated
update; the consolidated fields of `u` satisfy last-write-wins — the looked-up
value of any key equals the last value any of `u`'s events assigned to it, so
a later event overwrites the key and an event not carrying the key does not
erase the earlier value; and the consolidated updates are emitted in the
order identifiers were first seen within the window. -/
theorem claim_C3 (m : JobMap) (evs : List Event) (u : String)
    (h : ∃ e ∈ evs, goodUid e = some u) :
    (flushEmissions m evs).countP (isUpdateFor u) = 1 ∧
    (∃ fs, bufLookup (flushBuffer evs) u = some fs ∧
        ∀ k, dictLookup fs k = lastVal (eventFieldsFor evs u) k) ∧
    emittedUids (flushEmissions m evs) = firstSeen evs := by
  have hany : evs.any (fun e => decide (goodUid e = some u)) = true := by
    rcases h with ⟨e, he, hg⟩
    exact List.any_eq_true.mpr ⟨e, he, by simp [hg]⟩
  refine ⟨?_, ?_, ?_⟩
  · rw [flushEmissions, buffer_countP_update, flushBuffer, flush_keys]
    have := firstSeenAux_count u evs []
    simp only [List.map_nil] at this ⊢
    rw [this]
    simp [hany]
  · refine ⟨dictUpdate [] (eventFieldsFor evs u), ?_, ?_⟩
    · rw [flushBuffer, bufLookup_flush u evs []]
      simp [bufLookup, hany]
    · intro k
      rw [dictLookup_dictUpdate]
      cases hl : lastVal (eventFieldsFor evs u) k <;> simp [dictLookup]
  · rw [flushEmissions, buffer_emittedUids, flushBuffer, flush_keys, firstSeen]
    rfl

/-- Witness for C3: the two-update window of the spec scenario — first
`{downloaded: 100, name: 3}`, then `{downloaded: 250}`, same identifier —
yields exactly one consolidated update whose fields are the last-written
values, emitted for the single first-seen identifier. -/
theorem claim_C3_witness :
    (flushEmissions [] oneUidEvents).countP (isUpdateFor "a") = 1 ∧
    (∃ fs, bufLookup (flushBuffer oneUidEvents) "a" = some fs ∧
        ∀ k, dictLookup fs k = lastVal (eventFieldsFor oneUidEvents "a") k) ∧
    emittedUids (flushEmissions [] oneUidEvents) = firstSeen oneUidEvents :=
  claim_C3 [] oneUidEvents "a"
    ⟨⟨some "a", [("downloaded", 100), ("name", 3)]⟩, by decide, by decide⟩

/-- **C7 (counterexample).** The claim says the `total_speed` aggregate is
emitted exactly once per flush window; but `_observer` calls `_update_view`
once per buffered identifier (line 504-505) and every `_update_view` call
emits a `total_speed` notification (lines 530-533), so a window that touched
two identifiers emits it twice. -/
theorem claim_C7_counterexample :
    (flushEmissions speedMap twoUidEvents).countP isTotalSpeedMsg = 2 ∧
    ¬ (flushEmissions speedMap twoUidEvents).countP isTotalSpeedMsg = 1 := by
  constructor
  · decide
  · decide

/-- **C7 (amended).** On each flush the `total_speed` aggregate — carrying
the sum of `d.speed` over all jobs currently in `downloading` status — is
emitted once per consolidated per-identifier update (i.e. once per distinct
identifier touched during the window, zero times when no event arrived), not
once per flush window. -/
theorem claim_C7_amended (m : JobMap) (evs : List Event) :
    (flushEmissions m evs).countP isTotalSpeedMsg = (flushBuffer evs).length ∧
    (∀ msg ∈ flushEmissions m evs, isTotalSpeedMsg msg = true →
        msg = ViewMsg.totalSpeed (totalSpeedOf m)) := by
  constructor
  · rw [flushEmissions, buffer_countP_totalSpeed]
  · intro msg hm hts
    exact buffer_totalSpeed_member m (flushBuffer evs) msg hm hts

/-- Witness for C7: on the two-identifier window over a store holding one
downloading job of speed 5, the flush emits two `total_speed` messages (one
per consolidated update), each carrying the sum 5. -/
theorem claim_C7_witness :
    (flushEmissions speedMap twoUidEvents).countP isTotalSpeedMsg =
      (flushBuffer twoUidEvents).length ∧
    ViewMsg.totalSpeed 5 = ViewMsg.totalSpeed (totalSpeedOf speedMap) := by
  obtain ⟨h1, h2⟩ := claim_C7_amended speedMap twoUidEvents
  refine ⟨h1, ?_⟩
  exact h2 (ViewMsg.totalSpeed 5) (by decide) (by decide)

/-! ### The completion watchdog -/

theorem wdStep_fire (t : Bool) (p : Poll) (h : (wdStep t p).2 = true) :
    t = true ∧ p.actionConfigured = true ∧
    p.statuses.any Status.isActive = false ∧
    p.statuses.all (fun s => decide (s = Status.completed)) = true ∧
    (wdStep t p).1 = false := by
  unfold wdStep at h ⊢
  split at h
  case isTrue hcfg =>
    split at h
    case isTrue hact => simp at h
    case isFalse hact =>
      split at h
      case isTrue harm =>
        refine ⟨harm.1, hcfg, by simpa using hact, harm.2, ?_⟩
        simp [hcfg, hact, harm]
      case isFalse harm => simp at h
  case isFalse hcfg => simp at h

theorem wdStep_arm (t : Bool) (p : Poll) (h : (wdStep t p).1 = true) :
    t = true ∨ armingPoll p := by
  unfold wdStep at h
  split at h
  case isTrue hcfg =>
    split at h
    case isTrue hact => exact Or.inr ⟨hcfg, hact⟩
    case isFalse hact =>
      split at h
      case isTrue harm => simp at h
      case isFalse harm => exact Or.inl h
  case isFalse hcfg => simp at h

theorem wdTrigger_arm :
    ∀ (ps : List Poll) (t : Bool),
      wdTrigger t ps = true → t = true ∨ ∃ p ∈ ps, armingPoll p := by
  intro ps
  induction ps with
  | nil =>
      intro t h
      exact Or.inl h
  | cons p rest ih =>
      intro t h
      have h2 := ih ((wdStep t p).1) h
      rcases h2 with h2 | ⟨q, hq, ha⟩
      · rcases wdStep_arm t p h2 with h3 | h3
        · exact Or.inl h3
        · exact Or.inr ⟨p, List.mem_cons_self p rest, h3⟩
      · exact Or.inr ⟨q, List.mem_cons_of_mem p hq, ha⟩

theorem wdTrigger_append (t : Bool) (a b : List Poll) :
    wdTrigger t (a ++ b) = wdTrigger (wdTrigger t a) b := by
  simp [wdTrigger, List.foldl_append]

/-- **C4.** Along any poll trace of the completion watchdog started disarmed:
a poll that fires had an action configured, saw every job completed, and was
preceded by an arming poll (an action configured and at least one active
job); between any two firing polls there is a re-arming poll — the action
fires exactly once per transition from "some job active" to "all jobs
completed"; an armed watchdog whose poll sees the action configured, no
active job and all jobs completed does fire on that poll; and a trace in
which no poll ever sees an active job never fires. -/
theorem claim_C4 :
    (∀ (pre : List Poll) (p : Poll),
        (wdStep (wdTrigger false pre) p).2 = true →
        p.actionConfigured = true ∧
        p.statuses.all (fun s => decide (s = Status.completed)) = true ∧
        ∃ q ∈ pre, armingPoll q) ∧
    (∀ (pre : List Poll) (p : Poll) (mid : List Poll) (q : Poll),
        (wdStep (wdTrigger false pre) p).2 = true →
        (wdStep (wdTrigger false (pre ++ p :: mid)) q).2 = true →
        ∃ r ∈ mid, armingPoll r) ∧
    (∀ (pre : List Poll) (p : Poll),
        wdTrigger false pre = true →
        p.actionConfigured = true →
        p.statuses.any Status.isActive = false →
        p.statuses.all (fun s => decide (s = Status.completed)) = true →
        (wdStep (wdTrigger false pre) p).2 = true) ∧
    (∀ polls : List Poll,
        (∀ p ∈ polls, p.statuses.any Status.isActive = false) →
        ∀ b ∈ wdFired false polls, b = false) := by
  refine ⟨?_, ?_, ?_, ?_⟩
  · intro pre p h
    obtain ⟨ht, hcfg, hact, hall, hnew⟩ := wdStep_fire _ p h
    refine ⟨hcfg, hall, ?_⟩
    rcases wdTrigger_arm pre false ht with h2 | h2
    · simp at h2
    · exact h2
  · intro pre p mid q hp hq
    obtain ⟨_, _, _, _, hnew⟩ := wdStep_fire _ p hp
    obtain ⟨htq, _, _, _, _⟩ := wdStep_fire _ q hq
    rw [wdTrigger_append] at htq
    have hmid : wdTrigger false mid = true := by
      have : wdTrigger (wdTrigger false pre) (p :: mid) =
          wdTrigger ((wdStep (wdTrigger false pre) p).1) mid := rfl
      rw [this, hnew] at htq
      exact htq
    rcases wdTrigger_arm mid false hmid with h2 | h2
    · simp at h2
    · exact h2
  · intro pre p ht hcfg hact hall
    simp [wdStep, hcfg, hact, ht, hall]
  · intro polls
    induction polls with
    | nil =>
        intro hall b hb
        simp [wdFired] at hb
    | cons p rest ih =>
        intro hall b hb
        have hp := hall p (List.mem_cons_self p rest)
        have h1 : wdStep false p = (false, false) := by
          unfold wdStep
          by_cases hcfg : p.actionConfigured = true <;> simp [hcfg, hp]
        simp only [wdFired, h1, List.mem_cons] at hb
        rcases hb with hb | hb
        · exact hb
        · exact ih (fun q hq => hall q (List.mem_cons_of_mem p hq)) b hb

/-- Witness for C4: over the concrete trace arm (one downloading job), fire
(all completed), re-arm, fire — the theorem instantiates to: the second fire
is preceded by the re-arming poll, a fire needs a prior arming poll and an
all-completed snapshot, the armed all-completed poll does fire, and a trace
that never sees an active job never fires. -/
theorem claim_C4_witness :
    (pollDone.actionConfigured = true ∧
      pollDone.statuses.all (fun s => decide (s = Status.completed)) = true ∧
      ∃ q ∈ [pollArm], armingPoll q) ∧
    (∃ r ∈ [pollArm], armingPoll r) ∧
    (wdStep (wdTrigger false [pollArm]) pollDone).2 = true ∧
    (∀ b ∈ wdFired false [⟨true, [Status.error]⟩, ⟨true, [Status.completed]⟩],
        b = false) := by
  obtain ⟨h1, h2, h3, h4⟩ := claim_C4
  refine ⟨?_, ?_, ?_, ?_⟩
  · exact h1 [pollArm] pollDone (by decide)
  · exact h2 [pollArm] pollDone [pollArm] pollDone (by decide) (by decide)
  · exact h3 [pollArm] pollDone (by decide) (by decide) (by decide) (by decide)
  · exact h4 [⟨true, [Status.error]⟩, ⟨true, [Status.completed]⟩] (by decide)

/-! ### The post-completion action sequence -/

/-- **C9.** With `config.test_mode` off (production), `_post_download` on a
completed item runs every configured action — thumbnail fetch, checksum,
server-timestamp write, completion command, shutdown — whatever the failure
pattern of the fallible helpers (`env.thumbnail_fails`, `env.timestamp_fails`,
`env.command_error` do not appear in the result): a failure in one action
neither prevents the remaining actions from running nor changes the job's
status away from `completed`. -/
theorem claim_C9 (env : PostEnv) (d : Job)
    (hm : env.test_mode = false) (hc : d.status = Status.completed) :
    post_download env d =
      Except.ok
        ((if d.shutdown_pc then { d with shutdown_pc := false } else d),
         configuredActions env d) ∧
    (∀ (d2 : Job) (acts : List PostAction),
        post_download env d = Except.ok (d2, acts) →
        d2.status = Status.completed) := by
  have heq : post_download env d =
      Except.ok
        ((if d.shutdown_pc then { d with shutdown_pc := false } else d),
         configuredActions env d) := by
    cases h1 : env.download_thumbnail <;> cases h2 : env.checksum <;>
      cases h3 : env.use_server_timestamp <;>
      cases h4 : d.on_completion_command <;> cases h5 : d.shutdown_pc <;>
      simp [post_download, hc, thumbnailAction, timestampAction,
        checksumAction, commandAction, configuredActions, hm, h1, h2, h3,
        h4, h5, Bind.bind, Except.bind, Pure.pure, Except.pure]
  refine ⟨heq, ?_⟩
  intro d2 acts h
  rw [heq] at h
  simp only [Except.ok.injEq, Prod.mk.injEq] at h
  obtain ⟨hd2, -⟩ := h
  subst hd2
  by_cases h5 : d.shutdown_pc <;> simp [h5, hc]

/-- Witness for C9: every action configured, every fallible helper failing,
production mode, completed item with a command, a shutdown request and a
thumbnail: all five actions run in order and the status stays completed. -/
theorem claim_C9_witness :
    post_download postEnvAllFail jobDone =
      Except.ok ({ jobDone with shutdown_pc := false },
        [PostAction.thumbnail, PostAction.checksum, PostAction.timestamp,
         PostAction.command, PostAction.shutdown]) ∧
    Job.status { jobDone with shutdown_pc := false } = Status.completed := by
  obtain ⟨h1, h2⟩ := claim_C9 postEnvAllFail jobDone rfl rfl
  have heq : post_download postEnvAllFail jobDone =
      Except.ok ({ jobDone with shutdown_pc := false },
        [PostAction.thumbnail, PostAction.checksum, PostAction.timestamp,
         PostAction.command, PostAction.shutdown]) := h1.trans rfl
  exact ⟨heq, h2 { jobDone with shutdown_pc := false } _ heq⟩

end FireDM
